/-
Verification development for a small retrieval-augmented-generation helper
consisting of three Python modules:

  * `extract_data_from_markdown.py` — splits a consolidated Markdown file into
    per-document records `{title, slug, content, filepath}`;
  * `generate-embedings.py`       — annotates each record with an embedding
    obtained from an external service (with a bounded retry), or `null`;
  * `app.py`                       — serves similarity search over the corpus
    plus a "coverage analysis" built on an external generative model.

The development shallowly embeds the relevant functions.  Python strings are
modelled as `List Char` (wrapped in `String` at the interfaces), Python `None`
as `Option.none`, machine floats as `ℚ` (binary floating point itself is out of
scope; no proved statement depends on rounding), and calls to external network
services as explicit function parameters returning `Except Unit _`.  Regular
expressions from the source are hand-compiled to Lean functions; each
definition's doc comment names the source construct it embeds.
-/
import Mathlib

namespace RagDocs

/-! ### Python string primitives -/

/-- Python whitespace for `str.strip()` and the regex class `\s`
(ASCII part: space, `\t`, `\n`, `\v`, `\f`, `\r`). -/
def isPyWs (c : Char) : Bool :=
  c.toNat = 32 || c.toNat = 9 || c.toNat = 10 || c.toNat = 11 ||
  c.toNat = 12 || c.toNat = 13

/-- Python `str.strip()` on a character list: drop whitespace at both ends. -/
def pyStrip (l : List Char) : List Char :=
  ((l.dropWhile isPyWs).reverse.dropWhile isPyWs).reverse

/-- Python `str.strip()` on a `String`. -/
def pyStripS (s : String) : String :=
  (pyStrip s.data).asString

/-- The backtick character (code point 96). -/
def btick : Char := Char.ofNat 96

/-- Python `hay.replace(needle, '', 1)`: remove the first occurrence of
`needle` (if any) from `hay`. -/
def removeFirst (needle : List Char) : List Char → List Char
  | [] => []
  | c :: t =>
    if needle.isPrefixOf (c :: t) then (c :: t).drop needle.length
    else c :: removeFirst needle t

/-- Python `s.split(sep, 1)` when `sep` occurs in `s`: returns the part before
the first occurrence and the part after it; `none` when `sep` does not occur
(Python would return the one-element list `[s]`). -/
def splitOnceIdx (sep : List Char) : List Char → Option (List Char × List Char)
  | [] => if sep.isEmpty then some ([], []) else none
  | c :: t =>
    if sep.isPrefixOf (c :: t) then some ([], (c :: t).drop sep.length)
    else (splitOnceIdx sep t).map (fun p => (c :: p.1, p.2))

/-- Python `hay.replace(needle, repl)`: replace every (non-overlapping,
leftmost-first) occurrence of `needle`.  `fuel` bounds the recursion: every
step consumes at least one character of the haystack, so its length
suffices. -/
def replaceAllGo (fuel : Nat) (needle repl : List Char) : List Char → List Char
  | [] => []
  | c :: t =>
    match fuel with
    | 0 => c :: t
    | fuel' + 1 =>
      if ¬ needle.isEmpty ∧ needle.isPrefixOf (c :: t) = true then
        repl ++ replaceAllGo fuel' needle repl ((c :: t).drop needle.length)
      else
        c :: replaceAllGo fuel' needle repl t

/-- Python `hay.replace(needle, repl)` with the fuel instantiated. -/
def replaceAll (needle repl l : List Char) : List Char :=
  replaceAllGo l.length needle repl l

/-- Python `os.path.basename`: the part after the last `/`. -/
def basename (l : List Char) : List Char :=
  ((l.reverse.takeWhile (fun c => c ≠ '/')).reverse)

/-! ### Slug generation (`extract_data_from_markdown.py`, line 91)

`re.sub(r'[^a-z0-9]+', '-', temp_slug_source.lower()).strip('-')` -/

/-- Characters of the regex class `[a-z0-9]` (by code point). -/
def isSlugChar (c : Char) : Bool :=
  decide ((97 ≤ c.toNat ∧ c.toNat ≤ 122) ∨ (48 ≤ c.toNat ∧ c.toNat ≤ 57))

/-- Model of `re.sub(r'[^a-z0-9]+', '-', ·)`, compiled to a one-flag state machine:
`inRun` records whether the previous character was part of a non-`[a-z0-9]`
run (whose first character already emitted the single replacement hyphen). -/
def subRunsGo (inRun : Bool) : List Char → List Char
  | [] => []
  | c :: t =>
    if isSlugChar c then c :: subRunsGo false t
    else if inRun then subRunsGo true t
    else '-' :: subRunsGo true t

/-- Model of `re.sub(r'[^a-z0-9]+', '-', ·)`: replace every maximal run of characters
outside `[a-z0-9]` with a single hyphen. -/
def subRuns (l : List Char) : List Char :=
  subRunsGo false l

/-- Python `s.strip('-')`: drop hyphens at both ends. -/
def stripDashes (l : List Char) : List Char :=
  ((l.dropWhile (fun c => c = '-')).reverse.dropWhile (fun c => c = '-')).reverse

/-- The slug generator of `extract_data_from_markdown.py` line 91:
lower-case, collapse runs of non-`[a-z0-9]` characters to one hyphen, strip
leading and trailing hyphens.  (Python's `str.lower` is modelled per-character
by `Char.toLower`; the two agree on every character a slug can contain.) -/
def slugCore (l : List Char) : List Char :=
  stripDashes (subRuns (l.map Char.toLower))

/-- Slug generation on `String`s. -/
def slugify (s : String) : String :=
  (slugCore s.data).asString

/-! ### Metadata extraction (`extract_data_from_markdown.py`, lines 6–46) -/

/-- Matcher for the regex fragment `##\s*<word>` at the head of a list:
two hashes, any whitespace (greedy; `<word>` starts with a non-whitespace
character, so greediness is forced), then the literal `word`.  Returns the
number of characters matched. -/
def matchMarker (word : List Char) (s : List Char) : Option Nat :=
  match s with
  | '#' :: '#' :: rest =>
    let w := (rest.takeWhile isPyWs).length
    if word.isPrefixOf (rest.drop w) then some (2 + w + word.length) else none
  | _ => none

/-- Scan for the earliest position where `##\s*Metadata_End` matches; returns
the distance from the start of `s` to the end of that match (the non-greedy
`.*?` of the block regex stops at the first possible end marker). -/
def findEndMarker : List Char → Option Nat
  | [] => none
  | c :: t =>
    match matchMarker "Metadata_End".data (c :: t) with
    | some n => some n
    | none => (findEndMarker t).map (· + 1)

/-- Model of `re.search(r'(##\s*Metadata_Start.*?##\s*Metadata_End)', s, re.DOTALL)`:
the leftmost position where `##\s*Metadata_Start` matches and some later
`##\s*Metadata_End` completes the block, taking the earliest such end
(non-greedy `.*?`, with `.` matching newlines under DOTALL).  Returns the
matched block. -/
def findMetadataBlock : List Char → Option (List Char)
  | [] => none
  | c :: t =>
    match matchMarker "Metadata_Start".data (c :: t) with
    | some n =>
      match findEndMarker ((c :: t).drop n) with
      | some m => some ((c :: t).take (n + m))
      | none => findMetadataBlock t
    | none => findMetadataBlock t

/-- Model of `re.search(r'##\s*<key>\s*(.*)', block)` for `key ∈ {title:, slug:}`:
find the leftmost `##\s*<key>` match, skip whitespace after it (greedy `\s*`,
newlines included), and capture the rest of that line (`.` does not match
newlines here — no DOTALL on this search). -/
def searchKeyLine (key : List Char) : List Char → Option (List Char)
  | [] => none
  | c :: t =>
    match matchMarker key (c :: t) with
    | some n =>
      let rest := (c :: t).drop n
      let rest2 := rest.dropWhile isPyWs
      some (rest2.takeWhile (fun d => d ≠ '\n'))
    | none => searchKeyLine key t

/-- Characters of the regex class `[#*`\-]` used by the annotation heuristic
(`#`, `*`, backtick, `-`). -/
def isStructChar (c : Char) : Bool :=
  c = '#' || c = '*' || c = btick || c = '-'

/-- Model of `re.search(r'^[#*`\-]', s, re.MULTILINE) is not None`: some line of `s`
begins with a Markdown structural character.  `atStart` records whether the
current position is a line start. -/
def structScan (atStart : Bool) : List Char → Bool
  | [] => false
  | c :: t => (atStart && isStructChar c) || structScan (c = '\n') t

/-- Whether the MULTILINE structural-character search succeeds on `s`. -/
def hasStructLine (s : List Char) : Bool :=
  structScan true s

/-- Extracted metadata: the `title` and `slug` values (Python `None` when the
key line is absent from the block). -/
structure MetaPair where
  title : Option (List Char)
  slug : Option (List Char)
deriving DecidableEq, Repr

/-- Model of `extract_metadata_and_clean_content` (lines 6–46): locate the metadata
block, read `title`/`slug` from it, remove the block once and strip; then, if
the remainder starts with `:::`, apply the annotation heuristic of lines
30–42 (the heuristic runs only when a metadata block was found, mirroring the
nesting in the source). -/
def extract_metadata_and_clean_content (s : List Char) :
    MetaPair × List Char :=
  match findMetadataBlock s with
  | none => ({ title := none, slug := none }, s)
  | some blk =>
    let title := (searchKeyLine "title:".data blk).map pyStrip
    let slug := (searchKeyLine "slug:".data blk).map pyStrip
    let cwm := pyStrip (removeFirst blk s)
    let cleaned :=
      if ":::".data.isPrefixOf cwm then
        match splitOnceIdx ":::".data cwm with
        | some (p0, p1) =>
          let potential := pyStrip p1
          if 100 < potential.length ∨ hasStructLine potential then potential
          else pyStrip p0
        | none => cwm
      else cwm
    ({ title := title, slug := slug }, cleaned)

/-! ### Document splitting (`extract_data_from_markdown.py`, lines 48–107)

The boundary regex is
`r'## Arquivo: (.*?\.md)\s*\n*-{3,}\s*\n*(.*?)(?=\n## Arquivo:|\Z)'`
with `re.DOTALL`, used with `finditer`. -/

/-- The separator fragment `\s*\n*-{3,}\s*\n*`: skip whitespace, require at
least three consecutive hyphens (greedy `-{3,}` takes the whole run), skip
whitespace.  Returns the remainder on success. -/
def sepCheck (s : List Char) : Option (List Char) :=
  let s1 := s.dropWhile isPyWs
  let run := (s1.takeWhile (fun c => c = '-')).length
  if 3 ≤ run then some ((s1.drop run).dropWhile isPyWs) else none

/-- The non-greedy group `(.*?\.md)` followed by the separator: the shortest
prefix ending in `.md` whose remainder passes `sepCheck`.  `acc` holds the
reversed prefix consumed so far; returns the group and the remainder after
the separator. -/
def findMdSplit (acc : List Char) : List Char → Option (List Char × List Char)
  | [] =>
    if "dm.".data.isPrefixOf acc then (sepCheck []).map (fun r => (acc.reverse, r))
    else none
  | c :: t =>
    if "dm.".data.isPrefixOf acc then
      match sepCheck (c :: t) with
      | some r => some (acc.reverse, r)
      | none => findMdSplit (c :: acc) t
    else findMdSplit (c :: acc) t

/-- The non-greedy group `(.*?)(?=\n## Arquivo:|\Z)`: consume up to the
earliest position where the lookahead `\n## Arquivo:` matches, or the end of
input.  Returns the group and the (unconsumed) remainder. -/
def takeGroup2 (acc : List Char) : List Char → List Char × List Char
  | [] => (acc.reverse, [])
  | c :: t =>
    if "\n## Arquivo:".data.isPrefixOf (c :: t) then (acc.reverse, c :: t)
    else takeGroup2 (c :: acc) t

/-- Model of `re.finditer` with the boundary pattern: scan left to right; at each
position where the literal `## Arquivo: ` matches and the rest of the pattern
can complete, emit `(group1, group2)` and resume after the match (the
lookahead is not consumed).  `fuel` bounds the recursion (initialised to the
input length; each match consumes at least the literal). -/
def findDocs (fuel : Nat) : List Char → List (List Char × List Char)
  | [] => []
  | c :: t =>
    match fuel with
    | 0 => []
    | fuel' + 1 =>
      if "## Arquivo: ".data.isPrefixOf (c :: t) then
        match findMdSplit [] ((c :: t).drop 12) with
        | some (g1, afterSep) =>
          let p := takeGroup2 [] afterSep
          (g1, p.1) :: findDocs fuel' p.2
        | none => findDocs fuel' t
      else findDocs fuel' t

/-- One record of the intermediate extraction file (`raw_docs.json`). -/
structure ExtractedDoc where
  title : String
  slug : String
  content : String
  filepath : String
deriving DecidableEq, Repr

/-- The fallback title of lines 85–87: basename, drop every `.md`, turn `-`
and `_` into spaces, strip. -/
def fallbackTitle (fp : List Char) : List Char :=
  pyStrip (replaceAll "_".data " ".data
    (replaceAll "-".data " ".data
      (replaceAll ".md".data [] (basename fp))))

/-- The body of the `for match in matches` loop (lines 71–105): strip both
groups, skip an empty raw body, extract metadata and cleaned content, apply
the title/slug fallbacks (Python truthiness: `None` and the empty string both
trigger a fallback), skip an empty cleaned content, and emit the record. -/
def processMatch (g1 g2 : List Char) : Option ExtractedDoc :=
  let fp := pyStrip g1
  let raw := pyStrip g2
  if raw.isEmpty then none
  else
    let r := extract_metadata_and_clean_content raw
    let title0 := (r.1.title.getD [])
    let title1 := if title0.isEmpty then fallbackTitle fp else title0
    let slug0 := (r.1.slug.getD [])
    let slug1 :=
      if slug0.isEmpty then
        slugCore (if title1.isEmpty then replaceAll ".md".data [] (basename fp) else title1)
      else slug0
    if r.2.isEmpty then none
    else some { title := title1.asString, slug := slug1.asString,
                content := r.2.asString, filepath := fp.asString }

/-- The pure core of `extract_data_from_markdown` (lines 59–108): run the
boundary pattern over the whole file and process each match, dropping the
skipped ones.  (File input/output and progress printing are outside the
model.) -/
def extract_records (full : String) : List ExtractedDoc :=
  (findDocs full.data.length full.data).filterMap (fun p => processMatch p.1 p.2)

/-! ### Markdown stripping for embedding text (`generate-embedings.py`, lines 18–28)

`re.sub(r'\[.*?\]\(.*?\)|\*\*|__|\*|_|#+|`+|^\s*[-+*]\s*|^>\s*|\|.*?-+\s*\|',
        '', text, flags=re.MULTILINE)`
followed by whitespace collapsing.  Each alternative is compiled to a matcher
returning the number of characters it consumes at the current position; `re`
tries the alternatives in pattern order and takes the first that matches. -/

/-- Tail of `\(.*?\)`: non-greedy scan (newlines excluded) to the first `)`. -/
def parenClose : List Char → Option Nat
  | [] => none
  | c :: t =>
    if c = ')' then some 1
    else if c = '\n' then none
    else (parenClose t).map (· + 1)

/-- The fragment `\(.*?\)`. -/
def parenPart : List Char → Option Nat
  | '(' :: t => (parenClose t).map (· + 1)
  | _ => none

/-- Tail of `\[.*?\]\(.*?\)` after the `[`: non-greedy scan to the earliest
`]` from which `\(.*?\)` completes (a `]` without it is consumed by `.*?`). -/
def linkScan : List Char → Option Nat
  | [] => none
  | c :: t =>
    match (if c = ']' then parenPart t else none) with
    | some m => some (1 + m)
    | none => if c = '\n' then none else (linkScan t).map (· + 1)

/-- The alternative `\[.*?\]\(.*?\)`. -/
def linkAlt : List Char → Option Nat
  | '[' :: t => (linkScan t).map (· + 1)
  | _ => none

/-- The alternative `^\s*[-+*]\s*` (only at a line start): `\s*` must consume
exactly the whitespace run (the bullet characters are not whitespace), then a
bullet, then the following whitespace run. -/
def bulletAlt (s : List Char) : Option Nat :=
  let w := (s.takeWhile isPyWs).length
  match s.drop w with
  | c :: t =>
    if c = '-' || c = '+' || c = '*' then
      some (w + 1 + (t.takeWhile isPyWs).length)
    else none
  | [] => none

/-- The alternative `^>\s*` (only at a line start). -/
def bqAlt : List Char → Option Nat
  | '>' :: t => some (1 + (t.takeWhile isPyWs).length)
  | _ => none

/-- Tail of `\|.*?-+\s*\|` after the `|`: non-greedy scan for a hyphen run
(greedy `-+` takes the whole run) followed by whitespace and a closing `|`;
on failure the leading hyphen is consumed by `.*?` and scanning resumes one
character later, as regex backtracking does. -/
def tableScan : List Char → Option Nat
  | [] => none
  | c :: t =>
    if c = '-' then
      let run := 1 + (t.takeWhile (fun d => d = '-')).length
      let after := (c :: t).drop run
      let w := (after.takeWhile isPyWs).length
      match after.drop w with
      | '|' :: _ => some (run + w + 1)
      | _ => (tableScan t).map (· + 1)
    else if c = '\n' then none
    else (tableScan t).map (· + 1)

/-- The alternative `\|.*?-+\s*\|`. -/
def tableAlt : List Char → Option Nat
  | '|' :: t => (tableScan t).map (· + 1)
  | _ => none

/-- A run of at least one `c` at the head of `s` (for `#+` and the backtick
run). -/
def runAlt (c : Char) (s : List Char) : Option Nat :=
  let n := (s.takeWhile (fun d => d = c)).length
  if 1 ≤ n then some n else none

/-- The whole alternation, tried in pattern order; `atStart` tells whether
the `^`-anchored alternatives may fire (MULTILINE). -/
def mdAltLen (atStart : Bool) (s : List Char) : Option Nat :=
  (linkAlt s).orElse fun _ =>
  (if "**".data.isPrefixOf s then some 2 else none).orElse fun _ =>
  (if "__".data.isPrefixOf s then some 2 else none).orElse fun _ =>
  (if "*".data.isPrefixOf s then some 1 else none).orElse fun _ =>
  (if "_".data.isPrefixOf s then some 1 else none).orElse fun _ =>
  (runAlt '#' s).orElse fun _ =>
  (runAlt btick s).orElse fun _ =>
  (if atStart then bulletAlt s else none).orElse fun _ =>
  (if atStart then bqAlt s else none).orElse fun _ =>
  tableAlt s

/-- The `re.sub(..., '', text, flags=re.MULTILINE)` driver: scan left to
right; where the alternation matches, delete the match and continue after it
(anchors keep referring to positions of the original string); otherwise keep
the character.  `fuel` bounds the recursion (every step consumes at least one
character, so the input length suffices). -/
def mdSub (fuel : Nat) (atStart : Bool) (s : List Char) : List Char :=
  match fuel with
  | 0 => s
  | fuel' + 1 =>
    match s with
    | [] => []
    | c :: t =>
      match mdAltLen atStart (c :: t) with
      | some n =>
        mdSub fuel' (((c :: t).take n).getLast? == some '\n') ((c :: t).drop n)
      | none => c :: mdSub fuel' (c = '\n') t

/-- Model of `re.sub(r'<class>+', ' ', ·)` for a character class `p`, compiled to a
one-flag state machine: every maximal run of `p`-characters becomes a single
space (`inRun` records whether the run's first character already emitted
it). -/
def collapseGo (p : Char → Bool) (inRun : Bool) : List Char → List Char
  | [] => []
  | c :: t =>
    if p c then
      if inRun then collapseGo p true t else ' ' :: collapseGo p true t
    else c :: collapseGo p false t

/-- Model of `re.sub(r'\s+', ' ', ·)`: collapse every whitespace run to one space. -/
def collapseWs (l : List Char) : List Char :=
  collapseGo isPyWs false l

/-- Model of `re.sub(r'\n+', ' ', ·)`: collapse every newline run to one space. -/
def collapseNl (l : List Char) : List Char :=
  collapseGo (fun d => d = '\n') false l

/-- Model of `clean_text_for_embedding` (lines 18–28): strip Markdown syntax, then
collapse whitespace and strip, then collapse newline runs and strip. -/
def clean_text_for_embedding (s : String) : String :=
  let t1 := mdSub s.data.length true s.data
  let t2 := pyStrip (collapseWs t1)
  let t3 := pyStrip (collapseNl t2)
  t3.asString

/-! ### Embedding pipeline (`generate-embedings.py`, lines 30–97)

The external embedding endpoint is a parameter `svc`: for
`generate_embedding_with_retry`, `svc attempt` is the outcome of the call on
that attempt; for the batch loop, `svc i attempt` is the outcome for document
`i` on that attempt.  `time.sleep` is recorded as a list of slept durations
(in seconds). -/

/-- A document record as read from `raw_docs.json`: a JSON object whose keys
may be absent (`none`). -/
structure RawDoc where
  title : Option String
  slug : Option String
  content : Option String
  filepath : Option String
deriving DecidableEq, Repr

/-- A record of `processed_docs.json`: the raw record plus the `embedding`
key (`none` models JSON `null`). -/
structure ProcDoc extends RawDoc where
  embedding : Option (List ℚ)
deriving DecidableEq, Repr

/-- The `for attempt in range(retries)` loop of
`generate_embedding_with_retry` (lines 34–45) with `retries = 3`: return the
embedding on the first success; on failure sleep `2 ** attempt` seconds
unless this was the last attempt, in which case return `None`. -/
def retryFor (svc : Nat → Except Unit (List ℚ)) :
    List Nat → Option (List ℚ) × List Nat
  | [] => (none, [])
  | attempt :: rest =>
    match svc attempt with
    | .ok v => (some v, [])
    | .error _ =>
      if attempt < 3 - 1 then
        let r := retryFor svc rest
        (r.1, 2 ^ attempt :: r.2)
      else (none, [])

/-- Model of `generate_embedding_with_retry` (lines 30–45): the loop over
`range(3) = [0, 1, 2]`.  Returns the result (`none` after exhausting all
attempts) and the backoff sleeps performed. -/
def generate_embedding_with_retry (svc : Nat → Except Unit (List ℚ)) :
    Option (List ℚ) × List Nat :=
  retryFor svc [0, 1, 2]

/-- The embedded text of lines 72–77:
`f"{doc_title}. {doc_content[:1024]}"` with the `.get` defaults. -/
def embedTextRaw (d : RawDoc) : String :=
  (d.title.getD "Título Desconhecido") ++ ". " ++
    ((d.content.getD "").data.take 1024).asString

/-- The `for i, doc_data in enumerate(raw_docs)` loop of
`generate_embeddings_for_docs` (lines 71–97): every branch appends exactly
one record — with a `none` embedding when the cleaned text is empty or the
retried call failed, and with the returned vector on success. -/
def genDocsLoop (svc : Nat → Nat → Except Unit (List ℚ)) (i : Nat) :
    List RawDoc → List ProcDoc
  | [] => []
  | d :: ds =>
    let txt := clean_text_for_embedding (embedTextRaw d)
    if (pyStripS txt).isEmpty then
      { toRawDoc := d, embedding := none } :: genDocsLoop svc (i + 1) ds
    else
      { toRawDoc := d, embedding := (generate_embedding_with_retry (svc i)).1 } ::
        genDocsLoop svc (i + 1) ds

/-- The pure core of `generate_embeddings_for_docs` (lines 47–97): the batch
loop over the loaded records.  (File input/output and the empty-output early
return are outside the model.) -/
def generate_embeddings_for_docs (svc : Nat → Nat → Except Unit (List ℚ))
    (raw_docs : List RawDoc) : List ProcDoc :=
  genDocsLoop svc 0 raw_docs

/-! ### Similarity search (`app.py`, lines 71–92)

`PROCESSED_DOCS` is the `docs` parameter.  The numeric similarity
`1 - scipy.spatial.distance.cosine(q, v)` is an external floating-point
routine; it is a parameter `cos : List ℚ → List ℚ → Option ℚ`, where `none`
models the `ValueError` that the source catches (logging a warning and
skipping the document). -/

/-- A Python exception escaping a modelled function. -/
inductive PyErr
  | typeErr
  | keyErr
deriving DecidableEq, Repr

/-- The value of `np.array(doc_info.get("embedding"))`: `np.array(None)` is a
0-dimensional object array (not `None`!), `np.array(list)` a vector. -/
inductive NpVal
  | scalarObj
  | vec (v : List ℚ)
deriving DecidableEq, Repr

/-- Value of `np.array` applied to the optional embedding. -/
def npArray : Option (List ℚ) → NpVal
  | none => .scalarObj
  | some v => .vec v

/-- Evaluation of `len` on a numpy array: raises `TypeError: len() of unsized object` on a
0-dimensional array, else returns the length. -/
def npLen : NpVal → Except PyErr Nat
  | .scalarObj => .error .typeErr
  | .vec v => .ok v.length

/-- The `for doc_info in PROCESSED_DOCS` loop of lines 77–88, building the
`similarities` list in corpus order.  The guard
`doc_embedding is not None and len(doc_embedding) > 0 and
len(query_embedding) == len(doc_embedding)` is evaluated left to right:
`np.array(...)` never yields `None`, so the first conjunct is always true and
evaluating `len(doc_embedding)` raises `TypeError` whenever the stored
embedding was `null` or absent.  A `ValueError` from `cosine` (`cos _ _ =
none`) is caught: the document is skipped. -/
def simsOf (cos : List ℚ → List ℚ → Option ℚ) (query : List ℚ) :
    List ProcDoc → Except PyErr (List (ℚ × ProcDoc))
  | [] => .ok []
  | d :: ds =>
    match npLen (npArray d.embedding) with
    | .error e => .error e
    | .ok n =>
      let this : Option (ℚ × ProcDoc) :=
        if 0 < n ∧ query.length = n then
          (cos query (d.embedding.getD [])).map (fun s => (s, d))
        else none
      (simsOf cos query ds).map (fun rest => this.toList ++ rest)

/-- Model of `get_relevant_documents` (lines 71–92): collect the similarities, sort by
similarity descending (`list.sort(key=..., reverse=True)` is a stable sort;
`List.mergeSort` with `b.1 ≤ a.1` has exactly that behaviour), and keep the
first `top_k` (default 5). -/
def get_relevant_documents (cos : List ℚ → List ℚ → Option ℚ)
    (docs : List ProcDoc) (query : List ℚ) (top_k : Nat := 5) :
    Except PyErr (List (ℚ × ProcDoc)) :=
  (simsOf cos query docs).map
    (fun sims => (sims.mergeSort (fun a b => decide (b.1 ≤ a.1))).take top_k)

/-! ### Coverage analyzer (`app.py`, lines 94–156)

The generative model is a parameter `gen : Except Unit String`, the outcome
of `model.generate_content(...)` (`.text` on success).  The prompts only flow
into that external call and are not modelled.  Floating-point percentage
formatting (`f"{sim * 100:.2f}%"`) is modelled by decimal rounding on `ℚ`;
no proved statement depends on it. -/

/-- One entry of `relevant_docs_info`. -/
structure RDocInfo where
  title : String
  slug : String
  relevance : String
deriving DecidableEq, Repr

/-- The analyzer's return dictionary. -/
structure AnalyzeResult where
  response_text : String
  relevant_docs_info : List RDocInfo
deriving DecidableEq, Repr

/-- An external-service call made while handling a request. -/
inductive ExtCall
  | embed
  | genSuggestions
  | genRefinement
deriving DecidableEq, Repr

/-- Two decimal digits, zero-padded. -/
def pad2 (n : Nat) : String :=
  if n < 10 then "0" ++ toString n else toString n

/-- Stand-in for Python `f"{x:.2f}"` on `ℚ` (round half up at two decimals;
the binary-double rounding of the source is abstracted). -/
def fmt2f (q : ℚ) : String :=
  let c : ℤ := ⌊q * 100 + 1 / 2⌋
  let sign := if c < 0 then "-" else ""
  let a := c.natAbs
  sign ++ toString (a / 100) ++ "." ++ pad2 (a % 100)

/-- Model of `f"{sim * 100:.2f}%"` of line 127. -/
def relevanceStr (sim : ℚ) : String :=
  fmt2f (sim * 100) ++ "%"

/-- Line 101: returned when `PROCESSED_DOCS` is empty (falsy). -/
def notLoadedMsg : String :=
  "A documentação não foi carregada. Por favor, verifique a inicialização da aplicação."

/-- The fixed prefix of both no-match responses (lines 120 and 123), up to
and including the `'. ` that follows the interpolated query. -/
def notFoundHead (query : String) : String :=
  "Não foi possível encontrar informações claras na documentação sobre '" ++
    query ++ "'. "

/-- Line 120: the no-match success response text. -/
def noMatchOkText (query t : String) : String :=
  notFoundHead query ++
    "\n\n**Possíveis tópicos para cobrir esta lacuna:**\n" ++ t

/-- Line 123: the no-match degraded response text. -/
def noMatchErrText (query : String) : String :=
  notFoundHead query ++ "Erro ao gerar sugestões."

/-- The fixed prefix of both match-mode responses (lines 153 and 156), up to
and including the `' em parte. ` that follows the interpolated query. -/
def coveredHead (query : String) : String :=
  "A documentação existente já aborda o tópico '" ++ query ++ "' em parte. "

/-- Line 153: the match-mode success response text. -/
def matchOkText (query t : String) : String :=
  coveredHead query ++
    "Para uma cobertura mais abrangente, considere as seguintes melhorias:\n\n" ++ t

/-- Line 156: the match-mode degraded response text. -/
def matchErrText (query : String) : String :=
  coveredHead query ++ "Erro ao analisar melhorias."

/-- The `for sim, doc in relevant_docs_with_similarity` loop of lines
126–133, building `relevant_docs_info`.  `doc['title']` and `doc['content']`
are direct subscripts: a missing key raises `KeyError` (this loop runs before
the `try` around the generative call); `slug` and `filepath` use `.get` with
default `'N/A'`.  The `context_str` it also builds only feeds the prompt and
is not returned. -/
def buildDocsInfo : List (ℚ × ProcDoc) → Except PyErr (List RDocInfo)
  | [] => .ok []
  | (sim, d) :: rest =>
    match d.title, d.content with
    | some title, some _ =>
      (buildDocsInfo rest).map
        (fun r =>
          { title := title, slug := d.slug.getD "N/A",
            relevance := relevanceStr sim } :: r)
    | _, _ => .error .keyErr

/-- Model of `analyze_coverage_with_context` (lines 94–156).  Branch order follows the
source: the `if not PROCESSED_DOCS` guard first, then the two modes selected
on `relevant_docs_with_similarity`.  A failure of the generative call is
caught per mode and yields the degraded text; the match-mode degraded branch
returns an empty `relevant_docs_info`.  Also returns the generative calls
made. -/
def analyze_coverage_with_context (docs : List ProcDoc) (query : String)
    (ranked : List (ℚ × ProcDoc)) (gen : Except Unit String) :
    Except PyErr (AnalyzeResult × List ExtCall) :=
  if docs.isEmpty then
    .ok ({ response_text := notLoadedMsg, relevant_docs_info := [] }, [])
  else if ranked.isEmpty then
    match gen with
    | .ok t =>
      .ok ({ response_text := noMatchOkText query t, relevant_docs_info := [] },
        [.genSuggestions])
    | .error _ =>
      .ok ({ response_text := noMatchErrText query, relevant_docs_info := [] },
        [.genSuggestions])
  else
    match buildDocsInfo ranked with
    | .error e => .error e
    | .ok info =>
      match gen with
      | .ok t =>
        .ok ({ response_text := matchOkText query t, relevant_docs_info := info },
          [.genRefinement])
      | .error _ =>
        .ok ({ response_text := matchErrText query, relevant_docs_info := [] },
          [.genRefinement])

/-! ### The `/analyze_coverage` route (`app.py`, lines 170–191) -/

/-- The JSON body a response carries. -/
inductive RespBody
  | analysis (r : AnalyzeResult)
  | errorMsg (m : String)
  | errorExc
deriving DecidableEq, Repr

/-- An HTTP response: status code and body.  `errorMsg` is
`jsonify({"error": m})`; `errorExc` is the catch-all body of line 191
(`{"error": ..., "response_text": "", "relevant_docs_info": []}`). -/
structure HttpResp where
  status : Nat
  body : RespBody
deriving DecidableEq, Repr

/-- Line 176: the blank-query rejection message. -/
def blankQueryMsg : String :=
  "Nenhuma informação/tópico fornecido para análise de cobertura."

/-- Line 182: the query-embedding-failure message. -/
def embedFailMsg : String :=
  "Não foi possível gerar o embedding para a consulta."

/-- Modelled from the spec: `request.get_json()` on a malformed request body.
The rejection happens inside Flask/werkzeug, whose code is not part of this
repository; per the spec ("malformed request body: rejected immediately with
a client-error response, no retry") it is modelled as a 400 response produced
before the handler touches any external service. -/
def badBodyResp : HttpResp :=
  { status := 400, body := .errorMsg "Bad Request" }

/-- Model of `handle_analyze_coverage` (lines 170–191).  `body` is the parsed request:
`none` for a malformed body (rejected by the framework), `some qf` for a JSON
object whose optional `query` field is `qf`.  `embedSvc` is the outcome of
the `genai.embed_content` call for the query (`generate_embedding` of lines
62–69 catches its exception and returns `None`, which the route turns into a
500 response).  Everything after it runs inside the route's `try`: an
exception from the search or the analyzer is caught at line 189 and becomes a
500 response.  The second component lists the external calls made. -/
def handle_analyze_coverage (docs : List ProcDoc) (body : Option (Option String))
    (embedSvc : Except Unit (List ℚ)) (cos : List ℚ → List ℚ → Option ℚ)
    (gen : Except Unit String) : HttpResp × List ExtCall :=
  match body with
  | none => (badBodyResp, [])
  | some qf =>
    let query := pyStripS (qf.getD "")
    if query.isEmpty then
      ({ status := 400, body := .errorMsg blankQueryMsg }, [])
    else
      match embedSvc with
      | .error _ => ({ status := 500, body := .errorMsg embedFailMsg }, [.embed])
      | .ok qe =>
        match get_relevant_documents cos docs qe 5 with
        | .error _ => ({ status := 500, body := .errorExc }, [.embed])
        | .ok ranked =>
          match analyze_coverage_with_context docs query ranked gen with
          | .error _ => ({ status := 500, body := .errorExc }, [.embed])
          | .ok (res, calls) =>
            ({ status := 200, body := .analysis res }, .embed :: calls)

/-! ## Helper lemmas -/

theorem isPrefixOf_append_self (l r : List Char) : l.isPrefixOf (l ++ r) = true :=
  List.isPrefixOf_iff_prefix.mpr (List.prefix_append l r)

theorem splitOnceIdx_of_head (sep l : List Char) (hne : sep ≠ [])
    (h : sep.isPrefixOf l = true) :
    splitOnceIdx sep l = some ([], l.drop sep.length) := by
  cases l with
  | nil =>
    cases sep with
    | nil => exact absurd rfl hne
    | cons c t => simp [List.isPrefixOf] at h
  | cons c t => unfold splitOnceIdx; rw [if_pos h]

/-! ## Claims -/

/-- C5: on the consolidated Markdown input
`"## Arquivo: a.md\n---\n## Metadata_Start\n## title: A\n## slug: a\n## Metadata_End\nBody A"`
the splitter emits exactly one record
`{title: "A", slug: "a", content: "Body A", filepath: "a.md"}`. -/
theorem c5_scenario_single_record :
    extract_records
        "## Arquivo: a.md\n---\n## Metadata_Start\n## title: A\n## slug: a\n## Metadata_End\nBody A" =
      [{ title := "A", slug := "a", content := "Body A", filepath := "a.md" }] := by
  rfl

/-- C1 (code bug): on a corpus containing a record whose `embedding` is
`null`, `get_relevant_documents` is not total: `np.array(None)` is a
0-dimensional array — never `None` — so the guard meant to skip the record
instead evaluates `len()` on an unsized object and raises `TypeError`, which
propagates out of the search (it is only caught by the route's catch-all,
which turns it into a hard 500 error).  The warning branch of line 88
("... embedding inválido ou incompatível. Pulando.") shows the intended
behaviour was to skip such records. -/
theorem c1_null_embedding_raises :
    get_relevant_documents (fun _ _ => some 0)
      [{ title := some "t", slug := none, content := some "c", filepath := none,
         embedding := none }] [1] 5 = Except.error PyErr.typeErr := by
  rfl

/-- C6 (counterexample): for the document body `":::abc"`, which contains no
metadata block, the code never runs the annotation heuristic (it is nested
under "a metadata block was found") and keeps the body unchanged, so the
content is `":::abc"` — neither the empty text before the marker (which the
claim's `otherwise` branch demands: the text after the marker is 3 ≤ 100
characters and has no structural line start) nor the text after it. -/
theorem c6_counterexample :
    (extract_metadata_and_clean_content ":::abc".data).2 = ":::abc".data ∧
    ":::abc".data ≠ ([] : List Char) ∧ ":::abc".data ≠ "abc".data :=
  ⟨rfl, by decide, by decide⟩

/-- C6 (amended): for every document body that contains a metadata block,
if the text remaining after metadata removal begins with three colons, then
the extracted content is: the stripped text after the marker when that text
exceeds 100 characters or has a line beginning with `#`, `*`, backtick or
`-`; and otherwise the (empty) text before the marker. -/
theorem c6_annotation_heuristic (body blk : List Char)
    (hblk : findMetadataBlock body = some blk)
    (hcolon : ":::".data.isPrefixOf (pyStrip (removeFirst blk body)) = true) :
    (extract_metadata_and_clean_content body).2 =
      (let potential := pyStrip ((pyStrip (removeFirst blk body)).drop 3)
       if 100 < potential.length ∨ hasStructLine potential = true then potential
       else []) := by
  unfold extract_metadata_and_clean_content
  rw [hblk]
  simp only [if_pos hcolon,
    splitOnceIdx_of_head ":::".data (pyStrip (removeFirst blk body)) (by decide) hcolon]
  rfl

/-- C6 (witness for the amended theorem): a body with a metadata block whose
remainder starts with `:::` followed by a short, unstructured annotation;
the content comes out empty. -/
theorem c6_witness :
    (extract_metadata_and_clean_content
        "## Metadata_Start\n## title: T\n## Metadata_End\n:::note stuff".data).2 =
      (let potential := pyStrip ((pyStrip (removeFirst
          "## Metadata_Start\n## title: T\n## Metadata_End".data
          "## Metadata_Start\n## title: T\n## Metadata_End\n:::note stuff".data)).drop 3)
       if 100 < potential.length ∨ hasStructLine potential = true then potential
       else []) :=
  c6_annotation_heuristic
    "## Metadata_Start\n## title: T\n## Metadata_End\n:::note stuff".data
    "## Metadata_Start\n## title: T\n## Metadata_End".data
    (by rfl) (by rfl)

/-- C7: a request with a malformed body, or whose (stripped) `query` field is
blank or absent, is rejected with a 400 client-error response before any
external embedding or generation call is made (the call trace is empty).
The malformed-body case is the framework boundary modelled from the spec in
`badBodyResp`. -/
theorem c7_input_rejection :
    (∀ docs embedSvc cos gen,
       handle_analyze_coverage docs none embedSvc cos gen = (badBodyResp, [])) ∧
    (∀ docs qf embedSvc cos gen, (pyStripS (qf.getD "")).isEmpty = true →
       handle_analyze_coverage docs (some qf) embedSvc cos gen =
         ({ status := 400, body := .errorMsg blankQueryMsg }, [])) := by
  refine ⟨fun docs e c g => rfl, fun docs qf e c g h => ?_⟩
  simp only [handle_analyze_coverage, h, if_true]

theorem retryFor_all_fail (svc : Nat → Except Unit (List ℚ))
    (h : ∀ a, a < 3 → svc a = Except.error ()) :
    generate_embedding_with_retry svc = (none, [1, 2]) := by
  have h0 := h 0 (by omega)
  have h1 := h 1 (by omega)
  have h2 := h 2 (by omega)
  simp [generate_embedding_with_retry, retryFor, h0, h1, h2]

theorem genDocsLoop_toRaw (svc : Nat → Nat → Except Unit (List ℚ)) (i : Nat)
    (docs : List RawDoc) :
    (genDocsLoop svc i docs).map (fun d => d.toRawDoc) = docs := by
  induction docs generalizing i with
  | nil => rfl
  | cons d ds ih =>
    simp only [genDocsLoop]
    split <;> simp [ih]

theorem genDocs_length (svc : Nat → Nat → Except Unit (List ℚ))
    (docs : List RawDoc) :
    (generate_embeddings_for_docs svc docs).length = docs.length := by
  have h := congrArg List.length (genDocsLoop_toRaw svc 0 docs)
  simpa using h

theorem genDocsLoop_embedding_none (svc : Nat → Nat → Except Unit (List ℚ))
    (k : Nat) (docs : List RawDoc) (i : Nat) (p : ProcDoc)
    (hp : (genDocsLoop svc k docs)[i]? = some p)
    (hf : ∀ a, a < 3 → svc (k + i) a = Except.error ()) :
    p.embedding = none := by
  induction docs generalizing k i with
  | nil => simp [genDocsLoop] at hp
  | cons d ds ih =>
    rw [genDocsLoop] at hp
    cases i with
    | zero =>
      split at hp
      · simp only [List.getElem?_cons_zero, Option.some.injEq] at hp
        rw [← hp]
      · simp only [List.getElem?_cons_zero, Option.some.injEq] at hp
        rw [← hp]
        show (generate_embedding_with_retry (svc k)).1 = none
        rw [retryFor_all_fail (svc k) (by simpa using hf)]
    | succ j =>
      have hf' : ∀ a, a < 3 → svc ((k + 1) + j) a = Except.error () := by
        have he : (k + 1) + j = k + (j + 1) := by omega
        rw [he]; exact hf
      split at hp <;>
        (simp only [List.getElem?_cons_succ] at hp; exact ih (k + 1) j hp hf')

/-- C8: `generate_embedding_with_retry` makes up to 3 attempts; when every
attempt fails it sleeps 1 second after the first failure and 2 after the
second, then yields `None` instead of raising; and the batch loop still
emits one record per input (continuing past the failure), with a `none`
embedding for the document whose attempts all failed. -/
theorem c8_retry_and_batch :
    (∀ svc, (∀ a, a < 3 → svc a = Except.error ()) →
       generate_embedding_with_retry svc = (none, [1, 2])) ∧
    (∀ svc docs, (generate_embeddings_for_docs svc docs).length = docs.length) ∧
    (∀ svc docs i p, (generate_embeddings_for_docs svc docs)[i]? = some p →
       (∀ a, a < 3 → svc i a = Except.error ()) →
       p.embedding = none) :=
  ⟨fun svc h => retryFor_all_fail svc h,
   fun svc docs => genDocs_length svc docs,
   fun svc docs i p hp hf =>
     genDocsLoop_embedding_none svc 0 docs i p hp (by simpa using hf)⟩

/-- C8 (witness): with a service that always fails, the retry yields
`(none, [1, 2])` and a one-document batch still emits one record, with a
`none` embedding. -/
theorem c8_witness :
    generate_embedding_with_retry (fun _ => Except.error ()) = (none, [1, 2]) ∧
    (generate_embeddings_for_docs (fun _ _ => Except.error ())
        [{ title := some "t", slug := none, content := some "c",
           filepath := none }]).length = 1 ∧
    ({ toRawDoc := { title := some "t", slug := none, content := some "c",
                     filepath := none },
       embedding := none } : ProcDoc).embedding = none :=
  ⟨c8_retry_and_batch.1 _ (fun _ _ => rfl),
   c8_retry_and_batch.2.1 _ _,
   c8_retry_and_batch.2.2 (fun _ _ => Except.error ())
     [{ title := some "t", slug := none, content := some "c",
        filepath := none }] 0 _ (by rfl) (fun _ _ => rfl)⟩

/-- C10: the embedding pipeline emits exactly one output record per input
record, in order, with the `title`, `slug`, `content` and `filepath` fields
unchanged (mapping each output back to its underlying raw record recovers
the input list exactly); the output type adds only the `embedding` field. -/
theorem c10_pipeline_frame (svc : Nat → Nat → Except Unit (List ℚ))
    (docs : List RawDoc) :
    (generate_embeddings_for_docs svc docs).map (fun d => d.toRawDoc) = docs :=
  genDocsLoop_toRaw svc 0 docs

theorem toLower_fix (c : Char) (h : isSlugChar c = true ∨ c = '-') :
    c.toLower = c := by
  have hn : ¬ (c.toNat ≥ 65 ∧ c.toNat ≤ 90) := by
    rcases h with h | h
    · simp only [isSlugChar, decide_eq_true_eq] at h
      omega
    · subst h; decide
  unfold Char.toLower
  simp only []
  rw [if_neg hn]

theorem subRunsGo_mem (b : Bool) (l : List Char) :
    ∀ c ∈ subRunsGo b l, isSlugChar c = true ∨ c = '-' := by
  induction l generalizing b with
  | nil => intro c hc; simp [subRunsGo] at hc
  | cons a t ih =>
    intro c hc
    rw [subRunsGo] at hc
    by_cases ha : isSlugChar a = true
    · rw [if_pos ha] at hc
      rcases List.mem_cons.mp hc with rfl | hc'
      · exact Or.inl ha
      · exact ih false c hc'
    · rw [if_neg ha] at hc
      cases b with
      | true => exact ih true c (by simpa using hc)
      | false =>
        rcases List.mem_cons.mp (by simpa using hc) with rfl | hc'
        · exact Or.inr rfl
        · exact ih true c hc'

theorem subRunsGo_true_head (l : List Char) (x : Char)
    (hx : (subRunsGo true l).head? = some x) : isSlugChar x = true := by
  induction l with
  | nil => simp [subRunsGo] at hx
  | cons a t ih =>
    rw [subRunsGo] at hx
    by_cases ha : isSlugChar a = true
    · rw [if_pos ha] at hx
      simp only [List.head?_cons, Option.some.injEq] at hx
      rwa [← hx]
    · rw [if_neg ha] at hx
      exact ih (by simpa using hx)

theorem subRunsGo_chain (b : Bool) (l : List Char) :
    (subRunsGo b l).Chain'
      (fun x y => isSlugChar x = true ∨ isSlugChar y = true) := by
  induction l generalizing b with
  | nil => simp [subRunsGo]
  | cons a t ih =>
    rw [subRunsGo]
    by_cases ha : isSlugChar a = true
    · rw [if_pos ha]
      exact List.chain'_cons'.mpr ⟨fun y _ => Or.inl ha, ih false⟩
    · rw [if_neg ha]
      cases b with
      | true => simpa using ih true
      | false =>
        refine List.chain'_cons'.mpr
          ⟨fun y hy => Or.inr (subRunsGo_true_head t y (by simpa using hy)), ?_⟩
        simpa using ih true

theorem subRunsGo_fix (l : List Char)
    (hmem : ∀ c ∈ l, isSlugChar c = true ∨ c = '-')
    (hch : l.Chain' (fun x y => isSlugChar x = true ∨ isSlugChar y = true)) :
    subRunsGo false l = l := by
  induction l with
  | nil => rfl
  | cons a t ih =>
    have hmt : ∀ c ∈ t, isSlugChar c = true ∨ c = '-' :=
      fun c hc => hmem c (List.mem_cons_of_mem a hc)
    have hct : t.Chain' (fun x y => isSlugChar x = true ∨ isSlugChar y = true) := by
      simpa using hch.tail
    rcases hmem a (List.mem_cons_self a t) with ha | ha
    · rw [subRunsGo, if_pos ha, ih hmt hct]
    · subst ha
      have hs : isSlugChar '-' = false := by decide
      rw [subRunsGo, if_neg (by simp [hs])]
      simp only [Bool.false_eq_true, if_false]
      congr 1
      cases t with
      | nil => rfl
      | cons b t' =>
        have hb : isSlugChar b = true := by
          rcases (List.chain'_cons.mp hch).1 with h | h
          · exact absurd h (by simp [hs])
          · exact h
        have h2 := ih hmt hct
        rw [subRunsGo, if_pos hb] at h2 ⊢
        exact h2

theorem map_toLower_fix (l : List Char)
    (hmem : ∀ c ∈ l, isSlugChar c = true ∨ c = '-') :
    l.map Char.toLower = l := by
  induction l with
  | nil => rfl
  | cons a t ih =>
    simp only [List.map_cons]
    rw [toLower_fix a (hmem a (List.mem_cons_self a t)),
      ih (fun c hc => hmem c (List.mem_cons_of_mem a hc))]

theorem dropWhile_head_false (p : Char → Bool) (l : List Char) :
    ∀ x, (l.dropWhile p).head? = some x → p x = false := by
  induction l with
  | nil => intro x hx; simp at hx
  | cons a t ih =>
    intro x hx
    rw [List.dropWhile_cons] at hx
    split at hx
    · exact ih x hx
    · rename_i hpa
      simp only [List.head?_cons, Option.some.injEq] at hx
      rw [← hx]
      simpa using hpa

theorem dropWhile_eq_self_of_head (p : Char → Bool) (l : List Char)
    (h : ∀ x, l.head? = some x → p x = false) : l.dropWhile p = l := by
  cases l with
  | nil => rfl
  | cons a t => rw [List.dropWhile_cons, if_neg (by simp [h a rfl])]

theorem stripDashes_subset (l : List Char) : ∀ c ∈ stripDashes l, c ∈ l := by
  intro c hc
  have h1 : stripDashes l <+: l.dropWhile (fun c => c = '-') :=
    List.rdropWhile_prefix _ _
  have h2 : l.dropWhile (fun c => c = '-') <:+ l := List.dropWhile_suffix _
  exact h2.sublist.subset (h1.sublist.subset hc)

theorem stripDashes_chain {R : Char → Char → Prop} (l : List Char)
    (h : l.Chain' R) : (stripDashes l).Chain' R := by
  have h1 : (l.dropWhile (fun c => c = '-')).Chain' R :=
    h.suffix (List.dropWhile_suffix _)
  have h2 : ((l.dropWhile (fun c => c = '-')).reverse).Chain' (flip R) :=
    List.chain'_reverse.mpr h1
  have h3 : ((l.dropWhile (fun c => c = '-')).reverse.dropWhile
      (fun c => c = '-')).Chain' (flip R) :=
    h2.suffix (List.dropWhile_suffix _)
  exact List.chain'_reverse.mpr h3

theorem stripDashes_head (l : List Char) (x : Char)
    (hx : (stripDashes l).head? = some x) : (decide (x = '-')) = false := by
  rcases List.rdropWhile_prefix (fun c => decide (c = '-'))
      (l.dropWhile (fun c => c = '-')) with ⟨t, ht⟩
  have hx' : (List.rdropWhile (fun c => decide (c = '-'))
      (List.dropWhile (fun c => decide (c = '-')) l)).head? = some x := hx
  have hm : (l.dropWhile (fun c => c = '-')).head? = some x := by
    rw [← ht, List.head?_append, hx']; rfl
  exact dropWhile_head_false _ l x hm

theorem stripDashes_last (l : List Char) (x : Char)
    (hx : (stripDashes l).getLast? = some x) : (decide (x = '-')) = false := by
  have h1 : (stripDashes l).reverse.head? = some x := by
    rw [List.head?_reverse]; exact hx
  have h2 : (stripDashes l).reverse =
      (l.dropWhile (fun c => c = '-')).reverse.dropWhile (fun c => c = '-') := by
    simp [stripDashes]
  rw [h2] at h1
  exact dropWhile_head_false _ _ x h1

theorem stripDashes_fix (l : List Char)
    (hh : ∀ x, l.head? = some x → (decide (x = '-')) = false)
    (hl : ∀ x, l.getLast? = some x → (decide (x = '-')) = false) :
    stripDashes l = l := by
  unfold stripDashes
  rw [dropWhile_eq_self_of_head _ _ hh,
    dropWhile_eq_self_of_head _ _
      (fun x hx => hl x (by rwa [List.head?_reverse] at hx)),
    List.reverse_reverse]

theorem slugCore_idem (l : List Char) : slugCore (slugCore l) = slugCore l := by
  have hmem : ∀ c ∈ slugCore l, isSlugChar c = true ∨ c = '-' := by
    intro c hc
    exact subRunsGo_mem false _ c (stripDashes_subset _ c hc)
  have hch : (slugCore l).Chain'
      (fun x y => isSlugChar x = true ∨ isSlugChar y = true) :=
    stripDashes_chain _ (subRunsGo_chain false _)
  show stripDashes (subRunsGo false ((slugCore l).map Char.toLower)) = slugCore l
  rw [map_toLower_fix _ hmem, subRunsGo_fix _ hmem hch]
  exact stripDashes_fix _ (fun x hx => stripDashes_head _ x hx)
    (fun x hx => stripDashes_last _ x hx)

/-- C9: slug generation is idempotent — applying the slugifier (lower-case,
collapse runs of non-alphanumerics to one hyphen, trim boundary hyphens) to
any of its own outputs returns that output unchanged; equivalently, every
string that is already a slug is a fixed point. -/
theorem c9_slug_idempotent (s : String) : slugify (slugify s) = slugify s := by
  show (slugCore ((slugCore s.data).asString).data).asString = (slugCore s.data).asString
  rw [show ((slugCore s.data).asString).data = slugCore s.data from rfl, slugCore_idem]

theorem simsOf_ok (cos : List ℚ → List ℚ → Option ℚ) (query : List ℚ)
    (docs : List ProcDoc) (hall : ∀ d ∈ docs, d.embedding ≠ none) :
    ∃ cands, simsOf cos query docs = Except.ok cands := by
  induction docs with
  | nil => exact ⟨[], rfl⟩
  | cons d ds ih =>
    rcases ih (fun x hx => hall x (List.mem_cons_of_mem d hx)) with ⟨cands, hc⟩
    rcases Option.ne_none_iff_exists'.mp (hall d (List.mem_cons_self d ds)) with ⟨v, hv⟩
    refine ⟨(if 0 < v.length ∧ query.length = v.length then
        (cos query v).map (fun s => (s, d)) else none).toList ++ cands, ?_⟩
    rw [simsOf, hv, hc]
    rfl

theorem simsOf_mem (cos : List ℚ → List ℚ → Option ℚ) (query : List ℚ)
    (docs : List ProcDoc) (cands : List (ℚ × ProcDoc))
    (hc : simsOf cos query docs = Except.ok cands) :
    ∀ x ∈ cands, x.2 ∈ docs := by
  induction docs generalizing cands with
  | nil =>
    intro x hx
    simp only [simsOf, Except.ok.injEq] at hc
    rw [← hc] at hx
    simp at hx
  | cons d ds ih =>
    intro x hx
    cases he : d.embedding with
    | none => rw [simsOf, he] at hc; simp [npArray, npLen] at hc
    | some v =>
      rw [simsOf, he] at hc
      cases hrest : simsOf cos query ds with
      | error e => rw [hrest] at hc; simp [npArray, npLen, Except.map] at hc
      | ok rest =>
        rw [hrest] at hc
        simp only [npArray, npLen, Except.map, Except.ok.injEq] at hc
        rw [← hc] at hx
        rcases List.mem_append.mp hx with h1 | h2
        · have h1' := Option.mem_def.mp (Option.mem_toList.mp h1)
          split at h1'
          · rcases Option.map_eq_some'.mp h1' with ⟨s', hs', hx'⟩
            have hxd : x.2 = d := by rw [← hx']
            rw [hxd]
            exact List.mem_cons_self d ds
          · exact absurd h1' (by simp)
        · exact List.mem_cons_of_mem d (ih rest hrest x h2)

theorem simLe_trans (a b c : ℚ × ProcDoc)
    (hab : decide (b.1 ≤ a.1) = true) (hbc : decide (c.1 ≤ b.1) = true) :
    decide (c.1 ≤ a.1) = true :=
  decide_eq_true (le_trans (of_decide_eq_true hbc) (of_decide_eq_true hab))

theorem simLe_total (a b : ℚ × ProcDoc) :
    (decide (b.1 ≤ a.1) || decide (a.1 ≤ b.1)) = true := by
  rcases le_total b.1 a.1 with h | h <;> simp [h]

theorem mergeSort_filter_sim (cands : List (ℚ × ProcDoc)) (s : ℚ) :
    (cands.mergeSort (fun a b => decide (b.1 ≤ a.1))).filter
        (fun x => decide (x.1 = s)) =
      cands.filter (fun x => decide (x.1 = s)) := by
  have hpair : (cands.filter (fun x => decide (x.1 = s))).Pairwise
      (fun a b => (fun a b : ℚ × ProcDoc => decide (b.1 ≤ a.1)) a b = true) := by
    apply List.pairwise_of_forall_mem_list
    intro a ha b hb
    have ha' : a.1 = s := of_decide_eq_true (List.mem_filter.mp ha).2
    have hb' : b.1 = s := of_decide_eq_true (List.mem_filter.mp hb).2
    simp [ha', hb']
  have hsub : (cands.filter (fun x => decide (x.1 = s))).Sublist
      (cands.mergeSort (fun a b => decide (b.1 ≤ a.1))) :=
    List.sublist_mergeSort simLe_trans simLe_total hpair (List.filter_sublist cands)
  have hsub2 : (cands.filter (fun x => decide (x.1 = s))).Sublist
      ((cands.mergeSort (fun a b => decide (b.1 ≤ a.1))).filter
        (fun x => decide (x.1 = s))) := by
    have h1 := hsub.filter (fun x => decide (x.1 = s))
    rwa [List.filter_eq_self.mpr
      (fun a ha => (List.mem_filter.mp ha).2)] at h1
  have hlen : ((cands.mergeSort (fun a b => decide (b.1 ≤ a.1))).filter
      (fun x => decide (x.1 = s))).length =
      (cands.filter (fun x => decide (x.1 = s))).length :=
    (List.Perm.filter _ (List.mergeSort_perm cands _)).length_eq
  exact (hsub2.eq_of_length hlen.symm).symm

/-- C3 (counterexample): on a corpus whose second record has a `null`
embedding, the search does not return a ranked sequence at all: evaluating
the validity guard raises `TypeError` (the `np.array(None)` defect), so
"for every query vector and every k, search returns an ordered sequence" is
false for corpora containing null-embedding records (which the data model
explicitly retains). -/
theorem c3_counterexample :
    get_relevant_documents (fun _ _ => some 0)
      [{ title := none, slug := none, content := none, filepath := none,
         embedding := some [1] },
       { title := none, slug := none, content := none, filepath := none,
         embedding := none }] [1] 3 = Except.error PyErr.typeErr := by
  rfl

/-- C3 (amended): for every corpus whose records all carry a non-null
embedding, every similarity function, every query vector and every `k`, the
search succeeds and returns at most `k` matches in descending similarity,
ties broken by original candidate (corpus) order — the returned matches of
any fixed similarity are a prefix of the candidates with that similarity, in
order — and returns the empty sequence as a normal (`ok`) outcome when no
document passes the validity filter; `k` defaults to 5. -/
theorem c3_search_contract (cos : List ℚ → List ℚ → Option ℚ)
    (docs : List ProcDoc) (query : List ℚ) (k : Nat)
    (hall : ∀ d ∈ docs, d.embedding ≠ none) :
    ∃ cands r, simsOf cos query docs = Except.ok cands ∧
      get_relevant_documents cos docs query k = Except.ok r ∧
      r.length ≤ k ∧
      r.Pairwise (fun a b => b.1 ≤ a.1) ∧
      (∀ s : ℚ, ∃ t, cands.filter (fun x => decide (x.1 = s)) =
        r.filter (fun x => decide (x.1 = s)) ++ t) ∧
      (cands = [] → r = []) ∧
      get_relevant_documents cos docs query =
        get_relevant_documents cos docs query 5 := by
  rcases simsOf_ok cos query docs hall with ⟨cands, hc⟩
  refine ⟨cands, (cands.mergeSort (fun a b => decide (b.1 ≤ a.1))).take k,
    hc, ?_, List.length_take_le k _, ?_, ?_, ?_, rfl⟩
  · rw [get_relevant_documents, hc]
    rfl
  · have hs := @List.sorted_mergeSort (ℚ × ProcDoc)
      (fun a b => decide (b.1 ≤ a.1)) simLe_trans simLe_total cands
    have hs' : (cands.mergeSort (fun a b => decide (b.1 ≤ a.1))).Pairwise
        (fun a b => b.1 ≤ a.1) :=
      hs.imp (fun h => of_decide_eq_true h)
    exact List.Pairwise.sublist (List.take_sublist k _) hs'
  · intro s
    rcases List.IsPrefix.filter (fun x => decide (x.1 = s))
        (List.take_prefix k (cands.mergeSort (fun a b => decide (b.1 ≤ a.1))))
      with ⟨t, ht⟩
    exact ⟨t, by rw [← mergeSort_filter_sim cands s, ← ht]⟩
  · intro hnil
    subst hnil
    simp

/-- C3 (witness for the amended theorem): the contract instantiated on a
one-record corpus with a present embedding, `k = 2`. -/
theorem c3_witness :
    ∃ cands r,
      simsOf (fun _ _ => some 0) [1]
        [{ title := none, slug := none, content := none, filepath := none,
           embedding := some [1] }] = Except.ok cands ∧
      get_relevant_documents (fun _ _ => some 0)
        [{ title := none, slug := none, content := none, filepath := none,
           embedding := some [1] }] [1] 2 = Except.ok r ∧
      r.length ≤ 2 ∧
      r.Pairwise (fun a b => b.1 ≤ a.1) ∧
      (∀ s : ℚ, ∃ t, cands.filter (fun x => decide (x.1 = s)) =
        r.filter (fun x => decide (x.1 = s)) ++ t) ∧
      (cands = [] → r = []) ∧
      get_relevant_documents (fun _ _ => some 0)
        [{ title := none, slug := none, content := none, filepath := none,
           embedding := some [1] }] [1] =
        get_relevant_documents (fun _ _ => some 0)
          [{ title := none, slug := none, content := none, filepath := none,
             embedding := some [1] }] [1] 5 :=
  c3_search_contract (fun _ _ => some 0)
    [{ title := none, slug := none, content := none, filepath := none,
       embedding := some [1] }] [1] 2 (by decide)

theorem strS_isPrefixOf (a b : String) : a.data.isPrefixOf (a ++ b).data = true := by
  rw [String.data_append]
  exact isPrefixOf_append_self _ _

theorem strS_isPrefixOf2 (a x t : String) :
    a.data.isPrefixOf ((a ++ x) ++ t).data = true := by
  rw [String.data_append, String.data_append, List.append_assoc]
  exact isPrefixOf_append_self _ _

theorem isEmpty_false_of_ne_nil {α : Type} {l : List α} (h : l ≠ []) :
    l.isEmpty = false := by
  cases l with
  | nil => exact absurd rfl h
  | cons a t => rfl

theorem buildDocsInfo_ok (ranked : List (ℚ × ProcDoc))
    (h : ∀ x ∈ ranked, x.2.title ≠ none ∧ x.2.content ≠ none) :
    ∃ info, buildDocsInfo ranked = Except.ok info := by
  induction ranked with
  | nil => exact ⟨[], rfl⟩
  | cons a rest ih =>
    obtain ⟨sim, d⟩ := a
    rcases ih (fun x hx => h x (List.mem_cons_of_mem _ hx)) with ⟨info, hi⟩
    rcases h (sim, d) (List.mem_cons_self _ _) with ⟨ht, hc⟩
    rcases Option.ne_none_iff_exists'.mp ht with ⟨title, htitle⟩
    rcases Option.ne_none_iff_exists'.mp hc with ⟨content, hcontent⟩
    refine ⟨{ title := title, slug := d.slug.getD "N/A",
              relevance := relevanceStr sim } :: info, ?_⟩
    rw [buildDocsInfo, htitle, hcontent, hi]
    rfl

/-- C4 (counterexample): with an empty corpus and zero ranked matches the
analyzer does not select no-match mode — it returns the fixed "not loaded"
message (the `if not PROCESSED_DOCS` guard of line 100 fires first), whose
text does not begin with the "not found" prefix.  So mode selection does not
depend solely on whether the ranked-match sequence is empty. -/
theorem c4_counterexample :
    analyze_coverage_with_context [] "x" [] (Except.ok "s") =
      Except.ok ({ response_text := notLoadedMsg, relevant_docs_info := [] }, []) ∧
    (notFoundHead "x").data.isPrefixOf notLoadedMsg.data = false :=
  ⟨rfl, by decide⟩

/-- C4 (amended): for every query yielding zero ranked matches against a
NONEMPTY corpus, the analyzer selects no-match mode: the response text
begins with the fixed "not found" prefix, `relevant_docs_info` is empty, and
exactly the suggestion-generation call is attempted; with an empty corpus it
instead returns the fixed "not loaded" message with empty
`relevant_docs_info` and no generative call, so mode selection depends on
corpus nonemptiness as well as ranked-match emptiness. -/
theorem c4_no_match_mode (docs : List ProcDoc) (query : String)
    (gen : Except Unit String) (hne : docs ≠ []) :
    (∃ res calls,
       analyze_coverage_with_context docs query [] gen = Except.ok (res, calls) ∧
       res.relevant_docs_info = [] ∧
       (notFoundHead query).data.isPrefixOf res.response_text.data = true ∧
       calls = [ExtCall.genSuggestions]) ∧
    analyze_coverage_with_context [] query [] gen =
      Except.ok ({ response_text := notLoadedMsg, relevant_docs_info := [] }, []) := by
  have hd : docs.isEmpty = false := isEmpty_false_of_ne_nil hne
  refine ⟨?_, rfl⟩
  cases gen with
  | ok t =>
    refine ⟨{ response_text := noMatchOkText query t, relevant_docs_info := [] },
      [ExtCall.genSuggestions], ?_, rfl, ?_, rfl⟩
    · simp [analyze_coverage_with_context, hd]
    · exact strS_isPrefixOf2 (notFoundHead query)
        "\n\n**Possíveis tópicos para cobrir esta lacuna:**\n" t
  | error e =>
    refine ⟨{ response_text := noMatchErrText query, relevant_docs_info := [] },
      [ExtCall.genSuggestions], ?_, rfl, ?_, rfl⟩
    · simp [analyze_coverage_with_context, hd]
    · exact strS_isPrefixOf (notFoundHead query) "Erro ao gerar sugestões."

/-- C4 (witness for the amended theorem): a one-record corpus with no ranked
matches takes no-match mode; the empty corpus yields the "not loaded"
response. -/
theorem c4_witness :
    (∃ res calls,
       analyze_coverage_with_context
           [{ title := some "t", slug := none, content := some "c",
              filepath := none, embedding := some [1] }] "q" []
           (Except.ok "s") = Except.ok (res, calls) ∧
       res.relevant_docs_info = [] ∧
       (notFoundHead "q").data.isPrefixOf res.response_text.data = true ∧
       calls = [ExtCall.genSuggestions]) ∧
    analyze_coverage_with_context [] "q" [] (Except.ok "s") =
      Except.ok ({ response_text := notLoadedMsg, relevant_docs_info := [] }, []) :=
  c4_no_match_mode
    [{ title := some "t", slug := none, content := some "c",
       filepath := none, embedding := some [1] }] "q" (Except.ok "s")
    (List.cons_ne_nil _ _)

/-- C2 (counterexample): a failure to embed the user query at request time
is not converted into a successful-looking degraded response: the route
returns a hard 500 error (`{"error": "Não foi possível gerar o embedding
para a consulta."}`), refuting "never propagated to the caller as a hard
error" for this failure class. -/
theorem c2_counterexample :
    (handle_analyze_coverage
        [{ title := some "t", slug := none, content := some "c",
           filepath := none, embedding := some [1] }]
        (some (some "x")) (Except.error ()) (fun _ _ => some 0)
        (Except.ok "s")).1 =
      { status := 500, body := RespBody.errorMsg embedFailMsg } := by
  rfl

/-- C2 (amended): a failure of the generative model in either analyzer mode
is caught once and converted into a degraded but successful-looking response
(fixed prefix plus a generic "could not generate suggestions/improvements"
note) with empty `relevantDocsInfo`, and the route still answers 200; but a
failure to embed the user query at request time is instead answered with a
hard 500 error response. -/
theorem c2_degraded_and_embed_error :
    (∀ docs query ranked, docs ≠ [] →
       (∀ x ∈ ranked, x.2.title ≠ none ∧ x.2.content ≠ none) →
       ∃ res calls,
         analyze_coverage_with_context docs query ranked (Except.error ()) =
           Except.ok (res, calls) ∧
         res.relevant_docs_info = [] ∧
         (ranked = [] → res.response_text = noMatchErrText query) ∧
         (ranked ≠ [] → res.response_text = matchErrText query)) ∧
    (∀ docs qf cos qe, (pyStripS (qf.getD "")).isEmpty = false →
       docs ≠ [] →
       (∀ d ∈ docs, d.embedding ≠ none) →
       (∀ d ∈ docs, d.title ≠ none ∧ d.content ≠ none) →
       ((handle_analyze_coverage docs (some qf) (Except.ok qe) cos
           (Except.error ())).1).status = 200) ∧
    (∀ docs qf cos gen, (pyStripS (qf.getD "")).isEmpty = false →
       (handle_analyze_coverage docs (some qf) (Except.error ()) cos gen).1 =
         { status := 500, body := RespBody.errorMsg embedFailMsg }) := by
  refine ⟨?_, ?_, ?_⟩
  · intro docs query ranked hne hfields
    have hd : docs.isEmpty = false := isEmpty_false_of_ne_nil hne
    cases ranked with
    | nil =>
      refine ⟨{ response_text := noMatchErrText query, relevant_docs_info := [] },
        [ExtCall.genSuggestions], ?_, rfl, fun _ => rfl,
        fun h => absurd rfl h⟩
      simp [analyze_coverage_with_context, hd]
    | cons a rest =>
      rcases buildDocsInfo_ok (a :: rest) hfields with ⟨info, hinfo⟩
      refine ⟨{ response_text := matchErrText query, relevant_docs_info := [] },
        [ExtCall.genRefinement], ?_, rfl,
        fun h => absurd h (List.cons_ne_nil _ _), fun _ => rfl⟩
      simp [analyze_coverage_with_context, hd, hinfo]
  · intro docs qf cos qe hq hne hemb hfields
    rcases simsOf_ok cos qe docs hemb with ⟨cands, hcands⟩
    have hsearch : get_relevant_documents cos docs qe 5 =
        Except.ok ((cands.mergeSort (fun a b => decide (b.1 ≤ a.1))).take 5) := by
      rw [get_relevant_documents, hcands]
      rfl
    have hrmem : ∀ x ∈ (cands.mergeSort (fun a b => decide (b.1 ≤ a.1))).take 5,
        x.2 ∈ docs := by
      intro x hx
      have hx1 : x ∈ cands.mergeSort (fun a b => decide (b.1 ≤ a.1)) :=
        (List.take_sublist _ _).subset hx
      have hx2 : x ∈ cands := (List.mergeSort_perm cands _).mem_iff.mp hx1
      exact simsOf_mem cos qe docs cands hcands x hx2
    have hfr : ∀ x ∈ (cands.mergeSort (fun a b => decide (b.1 ≤ a.1))).take 5,
        x.2.title ≠ none ∧ x.2.content ≠ none :=
      fun x hx => hfields x.2 (hrmem x hx)
    have hd : docs.isEmpty = false := isEmpty_false_of_ne_nil hne
    have hana : ∃ res calls,
        analyze_coverage_with_context docs (pyStripS (qf.getD ""))
          ((cands.mergeSort (fun a b => decide (b.1 ≤ a.1))).take 5)
          (Except.error ()) = Except.ok (res, calls) := by
      by_cases hr : (cands.mergeSort (fun a b => decide (b.1 ≤ a.1))).take 5 = []
      · rw [hr]
        refine ⟨{ response_text := noMatchErrText (pyStripS (qf.getD "")),
                  relevant_docs_info := [] }, [ExtCall.genSuggestions], ?_⟩
        simp [analyze_coverage_with_context, hd]
      · rcases buildDocsInfo_ok _ hfr with ⟨info, hinfo⟩
        refine ⟨{ response_text := matchErrText (pyStripS (qf.getD "")),
                  relevant_docs_info := [] }, [ExtCall.genRefinement], ?_⟩
        simp [analyze_coverage_with_context, hd, hinfo,
          isEmpty_false_of_ne_nil hr]
    rcases hana with ⟨res, calls, hana⟩
    simp [handle_analyze_coverage, hq, hsearch, hana]
  · intro docs qf cos gen hq
    simp [handle_analyze_coverage, hq]

/-- C2 (witness for the amended theorem): both degraded modes on concrete
inputs, a 200 answer despite a generative failure, and the 500 answer for an
embedding failure. -/
theorem c2_witness :
    (∃ res calls,
       analyze_coverage_with_context
           [{ title := some "t", slug := none, content := some "c",
              filepath := none, embedding := some [1] }] "q" []
           (Except.error ()) = Except.ok (res, calls) ∧
       res.relevant_docs_info = [] ∧
       (([] : List (ℚ × ProcDoc)) = [] → res.response_text = noMatchErrText "q") ∧
       (([] : List (ℚ × ProcDoc)) ≠ [] → res.response_text = matchErrText "q")) ∧
    ((handle_analyze_coverage
        [{ title := some "t", slug := none, content := some "c",
           filepath := none, embedding := some [1] }]
        (some (some "q")) (Except.ok [1]) (fun _ _ => some 0)
        (Except.error ())).1).status = 200 ∧
    (handle_analyze_coverage
        [{ title := some "t", slug := none, content := some "c",
           filepath := none, embedding := some [1] }]
        (some (some "q")) (Except.error ()) (fun _ _ => some 0)
        (Except.ok "s")).1 =
      { status := 500, body := RespBody.errorMsg embedFailMsg } :=
  ⟨c2_degraded_and_embed_error.1
      [{ title := some "t", slug := none, content := some "c",
         filepath := none, embedding := some [1] }] "q" []
      (List.cons_ne_nil _ _) (by simp),
   c2_degraded_and_embed_error.2.1
      [{ title := some "t", slug := none, content := some "c",
         filepath := none, embedding := some [1] }]
      (some "q") (fun _ _ => some 0) [1] (by rfl)
      (List.cons_ne_nil _ _) (by decide) (by decide),
   c2_degraded_and_embed_error.2.2
      [{ title := some "t", slug := none, content := some "c",
         filepath := none, embedding := some [1] }]
      (some "q") (fun _ _ => some 0) (Except.ok "s") (by rfl)⟩

/-- C7 (witness): a whitespace-only query is rejected with 400 and an empty
call trace. -/
theorem c7_witness :
    handle_analyze_coverage [] (some (some "   ")) (Except.error ())
        (fun _ _ => none) (Except.error ()) =
      ({ status := 400, body := .errorMsg blankQueryMsg }, []) :=
  c7_input_rejection.2 [] (some "   ") (Except.error ()) (fun _ _ => none)
    (Except.error ()) (by rfl)

end RagDocs
